import Mathlib

/-!
Verification of the frame codec in `src/can_protocol.py` of the
Industrial-CANbus-Data-Analyzer repository.

The Python module is shallowly embedded: byte strings become `List ℕ`
(each entry a byte value), Python floats become `ℚ`, Python ints become
`ℤ` (or `ℕ` where the source value is a byte), and the fallible
`decode_frame` returns `Option DecodedFrame` exactly as the source
returns `Optional[DecodedFrame]`.  `struct.pack(">H"/">h", v)` is the
big-endian two-byte image of `v % 2^16`; the source only calls it on
values already clamped into the packable range.  `struct.unpack` on a
slice of fewer than two bytes raises `struct.error`, which the source
catches and converts to `None`; the embedding models that by `unpack16u`
/ `unpack16s` returning `none` off two-byte lists.
-/

set_option maxRecDepth 100000

namespace CanProtocol

/-! ### CAN id constants (`can_protocol.py` lines 23–28) -/

def CAN_ID_RPM : ℕ := 0x100
def CAN_ID_TEMP : ℕ := 0x101
def CAN_ID_TORQUE : ℕ := 0x102
def CAN_ID_VOLTAGE : ℕ := 0x103
def CAN_ID_CURRENT : ℕ := 0x104
def CAN_ID_ERROR : ℕ := 0x1FF

/-! ### Fault bit masks (lines 31–35) -/

def ERROR_OVERHEAT : ℤ := 0b00000001
def ERROR_OVERCURRENT : ℤ := 0b00000010
def ERROR_UNDERVOLTAGE : ℤ := 0b00000100
def ERROR_COMM_LOSS : ℤ := 0b00001000
def ERROR_ENCODER : ℤ := 0b00010000

/-- Truthiness of the Python expression `flags & m` for a mask `m = 2^k`
that has a single bit set: Python's `&` acts on the two's-complement
image of an arbitrary-precision integer, so bit `k` of `f` is set
iff `2^k ≤ f mod 2^(k+1)`. -/
def maskSet (f m : ℤ) : Bool := decide (m ≤ f % (2 * m))

/-! ### Data classes (lines 40–82) -/

structure MotorTelemetry where
  rpm : Option ℚ := none
  temp_c : Option ℚ := none
  torque_nm : Option ℚ := none
  voltage_v : Option ℚ := none
  current_a : Option ℚ := none
  error_flags : ℤ := 0
  timestamp : ℚ := 0

def MotorTelemetry.active_errors (t : MotorTelemetry) : List String :=
  (if maskSet t.error_flags ERROR_OVERHEAT then ["AŞIRI ISINMA"] else []) ++
  (if maskSet t.error_flags ERROR_OVERCURRENT then ["AŞIRI AKIM"] else []) ++
  (if maskSet t.error_flags ERROR_UNDERVOLTAGE then ["DÜŞÜK GERİLİM"] else []) ++
  (if maskSet t.error_flags ERROR_COMM_LOSS then ["İLETİŞİM KAYBI"] else []) ++
  (if maskSet t.error_flags ERROR_ENCODER then ["ENCODER HATASI"] else [])

structure DecodedFrame where
  can_id : ℕ
  raw_bytes : List ℕ
  signal : String
  value : ℚ
  unit : String
  is_error : Bool := false
  error_list : List String := []
deriving DecidableEq

/-! ### Encode functions (lines 88–115) -/

/-- Python `int(q)` on a real value: truncation toward zero. -/
def pyInt (q : ℚ) : ℤ := if 0 ≤ q then ⌊q⌋ else ⌈q⌉

/-- `struct.pack(">H"/">h", v)`: the two big-endian bytes of `v mod 2^16`.
The source only packs values already clamped inside the width's range,
where this agrees with `struct.pack`. -/
def pack16 (v : ℤ) : List ℕ := [(v % 65536).toNat / 256, (v % 65536).toNat % 256]

def encode_rpm (rpm : ℚ) : List ℕ := pack16 (max 0 (min 65535 (pyInt rpm)))

def encode_temp (temp_c : ℚ) : List ℕ := pack16 (max (-3276) (min 3276 (pyInt (temp_c * 10))))

def encode_torque (torque_nm : ℚ) : List ℕ := pack16 (max (-3276) (min 3276 (pyInt (torque_nm * 100))))

def encode_voltage (voltage_v : ℚ) : List ℕ := pack16 (max 0 (min 6553 (pyInt (voltage_v * 10))))

def encode_current (current_a : ℚ) : List ℕ := pack16 (max (-3276) (min 3276 (pyInt (current_a * 100))))

def encode_error (flags : ℤ) : List ℕ := [(flags % 256).toNat]

/-! ### Decode (lines 121–167) -/

/-- `struct.unpack(">H", b)[0]`; `none` when `b` is not exactly two bytes
(`struct.error`, caught by `decode_frame`). -/
def unpack16u : List ℕ → Option ℕ
  | [b0, b1] => some (b0 * 256 + b1)
  | _ => none

/-- `struct.unpack(">h", b)[0]`: big-endian two's-complement. -/
def unpack16s : List ℕ → Option ℤ
  | [b0, b1] =>
    some (if 32768 ≤ b0 * 256 + b1 then (b0 * 256 + b1 : ℤ) - 65536 else (b0 * 256 + b1 : ℤ))
  | _ => none

def _parse_error_flags (flags : ℤ) : List String :=
  (if maskSet flags ERROR_OVERHEAT then ["AŞIRI ISINMA"] else []) ++
  (if maskSet flags ERROR_OVERCURRENT then ["AŞIRI AKIM"] else []) ++
  (if maskSet flags ERROR_UNDERVOLTAGE then ["DÜŞÜK GERİLİM"] else []) ++
  (if maskSet flags ERROR_COMM_LOSS then ["İLETİŞİM KAYBI"] else []) ++
  (if maskSet flags ERROR_ENCODER then ["ENCODER HATASI"] else [])

def decode_frame (can_id : ℕ) (data : List ℕ) : Option DecodedFrame :=
  if can_id = CAN_ID_RPM then
    (unpack16u (data.take 2)).map fun (val : ℕ) =>
      { can_id := can_id, raw_bytes := data, signal := "Motor RPM",
        value := (val : ℚ), unit := "RPM" }
  else if can_id = CAN_ID_TEMP then
    (unpack16s (data.take 2)).map fun (val : ℤ) =>
      { can_id := can_id, raw_bytes := data, signal := "Motor Sıcaklığı",
        value := (val : ℚ) / 10, unit := "°C" }
  else if can_id = CAN_ID_TORQUE then
    (unpack16s (data.take 2)).map fun (val : ℤ) =>
      { can_id := can_id, raw_bytes := data, signal := "Tork",
        value := (val : ℚ) / 100, unit := "N·m" }
  else if can_id = CAN_ID_VOLTAGE then
    (unpack16u (data.take 2)).map fun (val : ℕ) =>
      { can_id := can_id, raw_bytes := data, signal := "DC Gerilim",
        value := (val : ℚ) / 10, unit := "V" }
  else if can_id = CAN_ID_CURRENT then
    (unpack16s (data.take 2)).map fun (val : ℤ) =>
      { can_id := can_id, raw_bytes := data, signal := "Faz Akımı",
        value := (val : ℚ) / 100, unit := "A" }
  else if can_id = CAN_ID_ERROR then
    let flags : ℕ := match data with | [] => 0 | b :: _ => b
    some { can_id := can_id, raw_bytes := data, signal := "Hata Durumu",
           value := (flags : ℚ), unit := "", is_error := true,
           error_list := _parse_error_flags (flags : ℤ) }
  else
    none

/-! ### Auxiliary tables used only to state claims -/

/-- Declared payload width of each catalog id (spec §6 wire catalog;
in the source the widths are implicit in the `data[:2]` / `data[0]`
accesses of `decode_frame`). -/
def knownWidth : ℕ → Option ℕ
  | 0x100 => some 2
  | 0x101 => some 2
  | 0x102 => some 2
  | 0x103 => some 2
  | 0x104 => some 2
  | 0x1FF => some 1
  | _ => none

/-- Name attached to each fault bit (spec §4.4), `none` on the reserved
bits 5–7. -/
def faultBitName : ℕ → Option String
  | 0 => some "AŞIRI ISINMA"
  | 1 => some "AŞIRI AKIM"
  | 2 => some "DÜŞÜK GERİLİM"
  | 3 => some "İLETİŞİM KAYBI"
  | 4 => some "ENCODER HATASI"
  | _ => none

/-- Modelled from the spec: `encode_bits` of the FaultRegister (spec
§4.4) is absent from `src/can_protocol.py` — only the `ERROR_*` bit
constants it would use appear there.  Per the spec's words it maps a set
of named conditions to the byte that sets exactly the bits of the given
names and clears all others, reserved bits 5–7 included. -/
def encode_bits (conds : List String) : ℕ :=
  (if "AŞIRI ISINMA" ∈ conds then 1 else 0) |||
  (if "AŞIRI AKIM" ∈ conds then 2 else 0) |||
  (if "DÜŞÜK GERİLİM" ∈ conds then 4 else 0) |||
  (if "İLETİŞİM KAYBI" ∈ conds then 8 else 0) |||
  (if "ENCODER HATASI" ∈ conds then 16 else 0)

/-- Modelled from the spec: "round to the nearest integer" (§4.2 step 1),
used only to compare the claimed rounding with the source's `int(...)`
truncation. -/
def roundNearest (q : ℚ) : ℤ := ⌊q + 1 / 2⌋

/-! ### Helper lemmas -/

theorem pyInt_sub_lt_one (q : ℚ) : |(pyInt q : ℚ) - q| < 1 := by
  rw [pyInt]
  split
  · rw [abs_lt]
    constructor
    · have := Int.lt_floor_add_one q
      linarith
    · have := Int.floor_le q
      linarith
  · rw [abs_lt]
    constructor
    · have := Int.le_ceil q
      linarith
    · have := Int.ceil_lt_add_one q
      linarith

theorem pyInt_le_of_le (q : ℚ) (c : ℤ) (hc : 0 ≤ c) (h : q ≤ (c : ℚ)) : pyInt q ≤ c := by
  rw [pyInt]
  split
  · calc ⌊q⌋ ≤ ⌊(c : ℚ)⌋ := Int.floor_le_floor h
      _ = c := Int.floor_intCast c
  · rename_i hq
    refine le_trans (Int.ceil_le.2 ?_) hc
    push_cast
    linarith [lt_of_not_le hq]

theorem le_pyInt_of_le (q : ℚ) (c : ℤ) (hc : c ≤ 0) (h : (c : ℚ) ≤ q) : c ≤ pyInt q := by
  rw [pyInt]
  split
  · rename_i hq
    exact le_trans hc (Int.floor_nonneg.2 hq)
  · calc c = ⌈(c : ℚ)⌉ := (Int.ceil_intCast c).symm
      _ ≤ ⌈q⌉ := Int.ceil_le_ceil h

theorem unpack16u_pack16 (n : ℤ) (h1 : 0 ≤ n) (h2 : n < 65536) :
    unpack16u ((pack16 n).take 2) = some n.toNat := by
  have hm : n % 65536 = n := by omega
  show unpack16u [(n % 65536).toNat / 256, (n % 65536).toNat % 256] = some n.toNat
  rw [hm]
  simp only [unpack16u]
  congr 1
  omega

theorem unpack16s_pack16 (n : ℤ) (h1 : -32768 ≤ n) (h2 : n < 32768) :
    unpack16s ((pack16 n).take 2) = some n := by
  show unpack16s [(n % 65536).toNat / 256, (n % 65536).toNat % 256] = some n
  rcases le_or_lt 0 n with h | h
  · have hm : n % 65536 = n := by omega
    rw [hm]
    simp only [unpack16s]
    rw [if_neg (by omega)]
    congr 1
    omega
  · have hm : n % 65536 = n + 65536 := by omega
    rw [hm]
    simp only [unpack16s]
    rw [if_pos (by omega)]
    congr 1
    omega

theorem signed_encode_ok (x : ℚ) (h1 : -3276 ≤ x) (h2 : x ≤ 3276) :
    unpack16s ((pack16 (max (-3276) (min 3276 (pyInt x)))).take 2) = some (pyInt x) ∧
    |(pyInt x : ℚ) - x| < 1 := by
  have ha : -3276 ≤ pyInt x := le_pyInt_of_le x (-3276) (by norm_num) (by push_cast; linarith)
  have hb : pyInt x ≤ 3276 := pyInt_le_of_le x 3276 (by norm_num) (by push_cast; linarith)
  have hc : max (-3276) (min 3276 (pyInt x)) = pyInt x := by omega
  rw [hc]
  exact ⟨unpack16s_pack16 _ (by omega) (by omega), pyInt_sub_lt_one x⟩

theorem unsigned_encode_ok (x : ℚ) (hi : ℤ) (hhi1 : 0 ≤ hi) (hhi2 : hi < 65536)
    (h1 : 0 ≤ x) (h2 : x ≤ (hi : ℚ)) :
    unpack16u ((pack16 (max 0 (min hi (pyInt x)))).take 2) = some (pyInt x).toNat ∧
    |(pyInt x : ℚ) - x| < 1 ∧ 0 ≤ pyInt x := by
  have ha : 0 ≤ pyInt x := le_pyInt_of_le x 0 (by norm_num) (by push_cast; linarith)
  have hb : pyInt x ≤ hi := pyInt_le_of_le x hi hhi1 h2
  have hc : max 0 (min hi (pyInt x)) = pyInt x := by omega
  rw [hc]
  exact ⟨unpack16u_pack16 _ (by omega) (by omega), pyInt_sub_lt_one x, ha⟩

/-! ### Claim theorems -/

/-- C9: `MotorTelemetry.active_errors` and `_parse_error_flags` are
extensionally the same derivation of fault names — for every telemetry
record, `active_errors` equals `_parse_error_flags` of its flag field,
element for element and in order. -/
theorem c9_active_errors_eq_parse (t : MotorTelemetry) :
    t.active_errors = _parse_error_flags t.error_flags := rfl

/-- C7: for every byte, `_parse_error_flags` lists exactly one name per
set named bit, in ascending bit order, with bit 0 = overheat,
bit 1 = overcurrent, bit 2 = undervoltage, bit 3 = communication loss,
bit 4 = encoder fault, and bits 5–7 contributing no names; in
particular byte `0x05` yields the overheat and undervoltage names. -/
theorem c7_fault_bit_names :
    (∀ b : ℕ, b < 256 →
      _parse_error_flags (b : ℤ) =
        (List.range 8).filterMap fun k => if b.testBit k then faultBitName k else none) ∧
    _parse_error_flags 0x05 = ["AŞIRI ISINMA", "DÜŞÜK GERİLİM"] :=
  ⟨by decide, by decide⟩

/-- Witness for C7 at the concrete byte 5. -/
theorem c7_fault_bit_names_witness :
    _parse_error_flags ((5 : ℕ) : ℤ) =
      (List.range 8).filterMap fun k => if Nat.testBit 5 k then faultBitName k else none :=
  c7_fault_bit_names.1 5 (by decide)

/-- C8: the spec-modelled `encode_bits` sets exactly the bits of the
given condition names, and composing it with the decoder's name
derivation reproduces the byte with reserved bits 5–7 cleared. -/
theorem c8_encode_bits_clears_reserved :
    (∀ b : ℕ, b < 256 →
      encode_bits (_parse_error_flags (b : ℤ)) = b &&& 0x1F) ∧
    encode_bits ["AŞIRI ISINMA", "DÜŞÜK GERİLİM"] = 0x05 :=
  ⟨by decide, by decide⟩

/-- Witness for C8 at byte `0xE5`, whose reserved bits 5 and 7 are set
and get cleared by the named-set round trip. -/
theorem c8_encode_bits_clears_reserved_witness :
    encode_bits (_parse_error_flags ((0xE5 : ℕ) : ℤ)) = 0xE5 &&& 0x1F :=
  c8_encode_bits_clears_reserved.1 0xE5 (by decide)

/-- C6: decoding the fault frame `(0x1FF, [b])` yields the raw byte
value `b`, and re-encoding that byte with `encode_error` reproduces
`[b]` exactly, reserved bits included. -/
theorem c6_fault_raw_byte_round_trip (b : ℕ) (hb : b < 256) :
    ∃ f, decode_frame CAN_ID_ERROR [b] = some f ∧ f.value = (b : ℚ) ∧
      f.is_error = true ∧ encode_error (b : ℤ) = [b] := by
  refine ⟨{ can_id := CAN_ID_ERROR, raw_bytes := [b], signal := "Hata Durumu",
            value := (b : ℚ), unit := "", is_error := true,
            error_list := _parse_error_flags (b : ℤ) }, ?_, rfl, rfl, ?_⟩
  · simp [decode_frame, CAN_ID_RPM, CAN_ID_TEMP, CAN_ID_TORQUE, CAN_ID_VOLTAGE,
      CAN_ID_CURRENT, CAN_ID_ERROR]
  · show [((b : ℤ) % 256).toNat] = [b]
    congr 1
    omega

/-- Witness for C6 at the concrete byte `0xA5`. -/
theorem c6_fault_raw_byte_round_trip_witness :
    ∃ f, decode_frame CAN_ID_ERROR [0xA5] = some f ∧ f.value = ((0xA5 : ℕ) : ℚ) ∧
      f.is_error = true ∧ encode_error ((0xA5 : ℕ) : ℤ) = [0xA5] :=
  c6_fault_raw_byte_round_trip 0xA5 (by decide)

/-- Counterexample to C3 as stated: for the fault id `0x1FF` (declared
width 1) and the empty payload, `decode_frame` does not report a
malformed frame — it returns a successfully decoded frame with the
missing byte read as flags 0. -/
theorem c3_fault_empty_payload_decodes_cx :
    decode_frame CAN_ID_ERROR [] =
      some { can_id := CAN_ID_ERROR, raw_bytes := [], signal := "Hata Durumu",
             value := 0, unit := "", is_error := true, error_list := [] } := by
  simp [decode_frame, CAN_ID_RPM, CAN_ID_TEMP, CAN_ID_TORQUE, CAN_ID_VOLTAGE,
    CAN_ID_CURRENT, CAN_ID_ERROR, _parse_error_flags, maskSet, ERROR_OVERHEAT,
    ERROR_OVERCURRENT, ERROR_UNDERVOLTAGE, ERROR_COMM_LOSS, ERROR_ENCODER]

/-- C3 amended: for the five numeric ids a payload shorter than the
declared width 2 makes `decode_frame` return `none` (the failure
outcome) instead of a decoded frame; the fault id is the exception
recorded in the counterexample, its empty payload decoding as flags 0. -/
theorem c3_short_numeric_payload_malformed :
    (∀ id ∈ [CAN_ID_RPM, CAN_ID_TEMP, CAN_ID_TORQUE, CAN_ID_VOLTAGE, CAN_ID_CURRENT],
      ∀ data : List ℕ, data.length < 2 → decode_frame id data = none) ∧
    decode_frame CAN_ID_ERROR [] =
      some { can_id := CAN_ID_ERROR, raw_bytes := [], signal := "Hata Durumu",
             value := 0, unit := "", is_error := true, error_list := [] } := by
  constructor
  · intro id hid data hlen
    match data with
    | [] =>
      fin_cases hid <;>
        simp [decode_frame, CAN_ID_RPM, CAN_ID_TEMP, CAN_ID_TORQUE, CAN_ID_VOLTAGE,
          CAN_ID_CURRENT, CAN_ID_ERROR, unpack16u, unpack16s]
    | [a] =>
      fin_cases hid <;>
        simp [decode_frame, CAN_ID_RPM, CAN_ID_TEMP, CAN_ID_TORQUE, CAN_ID_VOLTAGE,
          CAN_ID_CURRENT, CAN_ID_ERROR, unpack16u, unpack16s]
    | a :: b :: t => exact absurd hlen (by simp)
  · simp [decode_frame, CAN_ID_RPM, CAN_ID_TEMP, CAN_ID_TORQUE, CAN_ID_VOLTAGE,
      CAN_ID_CURRENT, CAN_ID_ERROR, _parse_error_flags, maskSet, ERROR_OVERHEAT,
      ERROR_OVERCURRENT, ERROR_UNDERVOLTAGE, ERROR_COMM_LOSS, ERROR_ENCODER]

/-- Witness for C3 (amended) at the spec's own example: a one-byte
payload on the rpm id. -/
theorem c3_short_numeric_payload_malformed_witness :
    decode_frame CAN_ID_RPM [0x01] = none :=
  c3_short_numeric_payload_malformed.1 CAN_ID_RPM (by decide) [0x01] (by decide)

/-- Counterexample to C4 as stated: an unknown id (`0x105`) and a
too-short payload on a known id (`0x100` with one byte) produce the
very same outcome `none` — the code signals both through a bare
optional, so the unknown-id outcome is not distinct from the
malformed-frame outcome. -/
theorem c4_unknown_vs_malformed_indistinct_cx :
    decode_frame 0x105 [0x00, 0x00] = none ∧
    decode_frame CAN_ID_RPM [0x01] = none ∧
    decode_frame 0x105 [0x00, 0x00] = decode_frame CAN_ID_RPM [0x01] := by
  refine ⟨?_, ?_, ?_⟩ <;>
    simp [decode_frame, CAN_ID_RPM, CAN_ID_TEMP, CAN_ID_TORQUE, CAN_ID_VOLTAGE,
      CAN_ID_CURRENT, CAN_ID_ERROR, unpack16u]

/-- C4 amended: `decode_frame` distinguishes success (`some frame`) from
failure (`none`), and every id outside the catalog yields `none` for
any payload — but that `none` is the same outcome a malformed frame
yields, so unknown id and malformed frame are not mutually
distinguishable. -/
theorem c4_unknown_id_gives_none (id : ℕ)
    (h : id ∉ [CAN_ID_RPM, CAN_ID_TEMP, CAN_ID_TORQUE, CAN_ID_VOLTAGE,
               CAN_ID_CURRENT, CAN_ID_ERROR]) :
    ∀ data : List ℕ, decode_frame id data = none := by
  intro data
  simp only [List.mem_cons, List.not_mem_nil, or_false, not_or] at h
  obtain ⟨h1, h2, h3, h4, h5, h6⟩ := h
  simp only [decode_frame, if_neg h1, if_neg h2, if_neg h3, if_neg h4, if_neg h5, if_neg h6]

/-- Witness for C4 (amended) at the spec's example id `0x999`. -/
theorem c4_unknown_id_gives_none_witness :
    decode_frame 0x999 [0x00, 0x00] = none :=
  c4_unknown_id_gives_none 0x999 (by decide) [0x00, 0x00]

/-- Counterexample to C5 as stated: `encode_temp 82.3` does not produce
the bytes `0x03 0x3B` claimed by the spec (those encode 827, i.e.
82.7 °C), and decoding `0x03 0x3B` does not yield 82.3. -/
theorem c5_spec_hex_bytes_cx :
    encode_temp (823 / 10) ≠ [0x03, 0x3B] ∧
    (decode_frame CAN_ID_TEMP [0x03, 0x3B]).map DecodedFrame.value = some (827 / 10) := by
  constructor
  · have hv : ((823 : ℚ) / 10 * 10) = 823 := by norm_num
    have hpy : pyInt ((823 : ℚ) / 10 * 10) = 823 := by
      rw [hv, pyInt, if_pos (by norm_num)]
      norm_num
    show pack16 (max (-3276) (min 3276 (pyInt ((823 : ℚ) / 10 * 10)))) ≠ [0x03, 0x3B]
    rw [hpy]
    decide
  · simp [decode_frame, CAN_ID_RPM, CAN_ID_TEMP, unpack16s]

/-- C5 amended: `encode_temp 82.3` produces the two bytes `0x03 0x37`
(the big-endian packing of 823), and decoding `(0x101, [0x03, 0x37])`
yields the value 82.3 with unit °C. -/
theorem c5_temp_example_bytes :
    encode_temp (823 / 10) = [0x03, 0x37] ∧
    decode_frame CAN_ID_TEMP [0x03, 0x37] =
      some { can_id := CAN_ID_TEMP, raw_bytes := [0x03, 0x37],
             signal := "Motor Sıcaklığı", value := 823 / 10, unit := "°C" } := by
  constructor
  · have hv : ((823 : ℚ) / 10 * 10) = 823 := by norm_num
    have hpy : pyInt ((823 : ℚ) / 10 * 10) = 823 := by
      rw [hv, pyInt, if_pos (by norm_num)]
      norm_num
    show pack16 (max (-3276) (min 3276 (pyInt ((823 : ℚ) / 10 * 10)))) = [0x03, 0x37]
    rw [hpy]
    decide
  · simp [decode_frame, CAN_ID_RPM, CAN_ID_TEMP, unpack16s]

/-- Counterexample to C2 as stated: at input 1.96 °C the source packs
`int(19.6) = 19`, not the claimed round-to-nearest 20 — Python `int`
truncates toward zero instead of rounding. -/
theorem c2_encode_truncates_not_rounds_cx :
    encode_temp (49 / 25) ≠
      pack16 (max (-3276) (min 3276 (roundNearest ((49 / 25) * 10)))) := by
  have hv : ((49 : ℚ) / 25 * 10) = 98 / 5 := by norm_num
  have hpy : pyInt ((49 : ℚ) / 25 * 10) = 19 := by
    rw [hv, pyInt, if_pos (by norm_num)]
    norm_num
  have hrd : roundNearest ((49 : ℚ) / 25 * 10) = 20 := by
    rw [hv, roundNearest]
    norm_num
  show pack16 (max (-3276) (min 3276 (pyInt ((49 : ℚ) / 25 * 10)))) ≠
    pack16 (max (-3276) (min 3276 (roundNearest ((49 : ℚ) / 25 * 10))))
  rw [hpy, hrd]
  decide

/-- C2 amended: each numeric encoder multiplies by the scale factor,
truncates toward zero (Python `int`), then saturates to the concrete
range (rpm `[0, 65535]`, temperature/torque/current `[-3276, 3276]`,
voltage `[0, 6553]`) before packing big-endian: the packed integer read
back from the wire is exactly `clamp (trunc (v * scale))`, and the
truncation agrees with `⌊·⌋` on nonnegative and `⌈·⌉` on nonpositive
inputs. -/
theorem c2_encode_clamp_trunc (v : ℚ) :
    unpack16u ((encode_rpm v).take 2) = some (max 0 (min 65535 (pyInt v))).toNat ∧
    unpack16s ((encode_temp v).take 2) = some (max (-3276) (min 3276 (pyInt (v * 10)))) ∧
    unpack16s ((encode_torque v).take 2) = some (max (-3276) (min 3276 (pyInt (v * 100)))) ∧
    unpack16u ((encode_voltage v).take 2) = some (max 0 (min 6553 (pyInt (v * 10)))).toNat ∧
    unpack16s ((encode_current v).take 2) = some (max (-3276) (min 3276 (pyInt (v * 100)))) ∧
    (0 ≤ v → pyInt v = ⌊v⌋) ∧ (v ≤ 0 → pyInt v = ⌈v⌉) := by
  refine ⟨unpack16u_pack16 _ (by omega) (by omega),
    unpack16s_pack16 _ (by omega) (by omega),
    unpack16s_pack16 _ (by omega) (by omega),
    unpack16u_pack16 _ (by omega) (by omega),
    unpack16s_pack16 _ (by omega) (by omega), ?_, ?_⟩
  · intro h
    rw [pyInt, if_pos h]
  · intro h
    rcases eq_or_lt_of_le h with h0 | h0
    · rw [pyInt, if_pos (le_of_eq h0.symm), h0]
      norm_num
    · rw [pyInt, if_neg (not_le.2 h0)]

/-- Witness for C2 (amended): the truncation clauses applied at the
concrete inputs 3.5 and -3.5. -/
theorem c2_encode_clamp_trunc_witness :
    pyInt (7 / 2) = ⌊(7 / 2 : ℚ)⌋ ∧ pyInt (-7 / 2) = ⌈(-7 / 2 : ℚ)⌉ :=
  ⟨(c2_encode_clamp_trunc (7 / 2)).2.2.2.2.2.1 (by norm_num),
   (c2_encode_clamp_trunc (-7 / 2)).2.2.2.2.2.2 (by norm_num)⟩

/-- C1: for every numeric signal and every value inside its
representable range (rpm `[0, 65535]`, temperature `±327.6`, torque
`±32.76`, voltage `[0, 655.3]`, current `±32.76`), decoding the
encoding succeeds and returns the value within one unit of the scale
resolution `1/scaleFactor`. -/
theorem c1_numeric_round_trip (v : ℚ) :
    (0 ≤ v → v ≤ 65535 →
      ∃ f, decode_frame CAN_ID_RPM (encode_rpm v) = some f ∧ |f.value - v| ≤ 1) ∧
    (-3276 / 10 ≤ v → v ≤ 3276 / 10 →
      ∃ f, decode_frame CAN_ID_TEMP (encode_temp v) = some f ∧ |f.value - v| ≤ 1 / 10) ∧
    (-3276 / 100 ≤ v → v ≤ 3276 / 100 →
      ∃ f, decode_frame CAN_ID_TORQUE (encode_torque v) = some f ∧ |f.value - v| ≤ 1 / 100) ∧
    (0 ≤ v → v ≤ 6553 / 10 →
      ∃ f, decode_frame CAN_ID_VOLTAGE (encode_voltage v) = some f ∧ |f.value - v| ≤ 1 / 10) ∧
    (-3276 / 100 ≤ v → v ≤ 3276 / 100 →
      ∃ f, decode_frame CAN_ID_CURRENT (encode_current v) = some f ∧ |f.value - v| ≤ 1 / 100) := by
  refine ⟨?_, ?_, ?_, ?_, ?_⟩
  · intro h0 hhi
    obtain ⟨hdec, herr, hpos⟩ :=
      unsigned_encode_ok v 65535 (by norm_num) (by norm_num) h0 (by exact_mod_cast hhi)
    refine ⟨{ can_id := CAN_ID_RPM, raw_bytes := encode_rpm v, signal := "Motor RPM",
              value := ((pyInt v).toNat : ℚ), unit := "RPM" }, ?_, ?_⟩
    · simp [decode_frame, encode_rpm, CAN_ID_RPM, hdec]
    · show |((pyInt v).toNat : ℚ) - v| ≤ 1
      have ht : ((pyInt v).toNat : ℚ) = (pyInt v : ℚ) := by
        exact_mod_cast Int.toNat_of_nonneg hpos
      rw [ht]
      exact le_of_lt herr
  · intro hlo hhi
    obtain ⟨hdec, herr⟩ := signed_encode_ok (v * 10) (by linarith) (by linarith)
    refine ⟨{ can_id := CAN_ID_TEMP, raw_bytes := encode_temp v, signal := "Motor Sıcaklığı",
              value := (pyInt (v * 10) : ℚ) / 10, unit := "°C" }, ?_, ?_⟩
    · simp [decode_frame, encode_temp, CAN_ID_RPM, CAN_ID_TEMP, hdec]
    · show |(pyInt (v * 10) : ℚ) / 10 - v| ≤ 1 / 10
      have h : ((pyInt (v * 10) : ℚ) / 10 - v) = ((pyInt (v * 10) : ℚ) - v * 10) / 10 := by
        ring
      rw [h, abs_div, show |(10 : ℚ)| = 10 from by norm_num]
      linarith
  · intro hlo hhi
    obtain ⟨hdec, herr⟩ := signed_encode_ok (v * 100) (by linarith) (by linarith)
    refine ⟨{ can_id := CAN_ID_TORQUE, raw_bytes := encode_torque v, signal := "Tork",
              value := (pyInt (v * 100) : ℚ) / 100, unit := "N·m" }, ?_, ?_⟩
    · simp [decode_frame, encode_torque, CAN_ID_RPM, CAN_ID_TEMP, CAN_ID_TORQUE, hdec]
    · show |(pyInt (v * 100) : ℚ) / 100 - v| ≤ 1 / 100
      have h : ((pyInt (v * 100) : ℚ) / 100 - v) = ((pyInt (v * 100) : ℚ) - v * 100) / 100 := by
        ring
      rw [h, abs_div, show |(100 : ℚ)| = 100 from by norm_num]
      linarith
  · intro h0 hhi
    obtain ⟨hdec, herr, hpos⟩ :=
      unsigned_encode_ok (v * 10) 6553 (by norm_num) (by norm_num) (by linarith)
        (by push_cast; linarith)
    refine ⟨{ can_id := CAN_ID_VOLTAGE, raw_bytes := encode_voltage v, signal := "DC Gerilim",
              value := ((pyInt (v * 10)).toNat : ℚ) / 10, unit := "V" }, ?_, ?_⟩
    · simp [decode_frame, encode_voltage, CAN_ID_RPM, CAN_ID_TEMP, CAN_ID_TORQUE,
        CAN_ID_VOLTAGE, hdec]
    · show |((pyInt (v * 10)).toNat : ℚ) / 10 - v| ≤ 1 / 10
      have ht : ((pyInt (v * 10)).toNat : ℚ) = (pyInt (v * 10) : ℚ) := by
        exact_mod_cast Int.toNat_of_nonneg hpos
      rw [ht]
      have h : ((pyInt (v * 10) : ℚ) / 10 - v) = ((pyInt (v * 10) : ℚ) - v * 10) / 10 := by
        ring
      rw [h, abs_div, show |(10 : ℚ)| = 10 from by norm_num]
      linarith
  · intro hlo hhi
    obtain ⟨hdec, herr⟩ := signed_encode_ok (v * 100) (by linarith) (by linarith)
    refine ⟨{ can_id := CAN_ID_CURRENT, raw_bytes := encode_current v, signal := "Faz Akımı",
              value := (pyInt (v * 100) : ℚ) / 100, unit := "A" }, ?_, ?_⟩
    · simp [decode_frame, encode_current, CAN_ID_RPM, CAN_ID_TEMP, CAN_ID_TORQUE,
        CAN_ID_VOLTAGE, CAN_ID_CURRENT, hdec]
    · show |(pyInt (v * 100) : ℚ) / 100 - v| ≤ 1 / 100
      have h : ((pyInt (v * 100) : ℚ) / 100 - v) = ((pyInt (v * 100) : ℚ) - v * 100) / 100 := by
        ring
      rw [h, abs_div, show |(100 : ℚ)| = 100 from by norm_num]
      linarith

/-- Witness for C1: the round trip applied to one in-range value of
each numeric signal. -/
theorem c1_numeric_round_trip_witness :
    (∃ f, decode_frame CAN_ID_RPM (encode_rpm 1500) = some f ∧ |f.value - 1500| ≤ 1) ∧
    (∃ f, decode_frame CAN_ID_TEMP (encode_temp (823 / 10)) = some f ∧
      |f.value - 823 / 10| ≤ 1 / 10) ∧
    (∃ f, decode_frame CAN_ID_TORQUE (encode_torque 12) = some f ∧ |f.value - 12| ≤ 1 / 100) ∧
    (∃ f, decode_frame CAN_ID_VOLTAGE (encode_voltage 540) = some f ∧ |f.value - 540| ≤ 1 / 10) ∧
    (∃ f, decode_frame CAN_ID_CURRENT (encode_current (-5)) = some f ∧
      |f.value - (-5)| ≤ 1 / 100) :=
  ⟨(c1_numeric_round_trip 1500).1 (by norm_num) (by norm_num),
   (c1_numeric_round_trip (823 / 10)).2.1 (by norm_num) (by norm_num),
   (c1_numeric_round_trip 12).2.2.1 (by norm_num) (by norm_num),
   (c1_numeric_round_trip 540).2.2.2.1 (by norm_num) (by norm_num),
   (c1_numeric_round_trip (-5)).2.2.2.2 (by norm_num) (by norm_num)⟩

/-- C10: for every catalog id and any payload at least as long as the
declared width, decoding succeeds; the decoded value, fault flag and
fault-name list depend only on the first declared-width bytes, while
`can_id` echoes the input id and `raw_bytes` stores the whole payload,
trailing bytes included. -/
theorem c10_oversized_payload_tolerant (id w : ℕ) (data data' : List ℕ)
    (hw : knownWidth id = some w) (hlen : w ≤ data.length) (hlen' : w ≤ data'.length)
    (htake : data.take w = data'.take w) :
    ∃ f f', decode_frame id data = some f ∧ decode_frame id data' = some f' ∧
      f.can_id = id ∧ f.raw_bytes = data ∧
      f.value = f'.value ∧ f.is_error = f'.is_error ∧ f.error_list = f'.error_list := by
  have cons2 : ∀ l : List ℕ, 2 ≤ l.length → ∃ a b t, l = a :: b :: t := by
    intro l hl
    match l with
    | a :: b :: t => exact ⟨a, b, t, rfl⟩
    | [] => simp at hl
    | [a] => simp at hl
  have cons1 : ∀ l : List ℕ, 1 ≤ l.length → ∃ a t, l = a :: t := by
    intro l hl
    match l with
    | a :: t => exact ⟨a, t, rfl⟩
    | [] => simp at hl
  unfold knownWidth at hw
  split at hw
  · injection hw with h
    subst h
    obtain ⟨a, b, t, rfl⟩ := cons2 data hlen
    obtain ⟨a2, b2, t2, rfl⟩ := cons2 data' hlen'
    simp only [List.take_succ_cons, List.take_zero, List.cons.injEq, and_true] at htake
    obtain ⟨rfl, rfl⟩ := htake
    refine ⟨{ can_id := 0x100, raw_bytes := a :: b :: t, signal := "Motor RPM",
              value := ((a * 256 + b : ℕ) : ℚ), unit := "RPM" },
            { can_id := 0x100, raw_bytes := a :: b :: t2, signal := "Motor RPM",
              value := ((a * 256 + b : ℕ) : ℚ), unit := "RPM" },
            ?_, ?_, rfl, rfl, rfl, rfl, rfl⟩ <;>
      simp [decode_frame, CAN_ID_RPM, unpack16u]
  · injection hw with h
    subst h
    obtain ⟨a, b, t, rfl⟩ := cons2 data hlen
    obtain ⟨a2, b2, t2, rfl⟩ := cons2 data' hlen'
    simp only [List.take_succ_cons, List.take_zero, List.cons.injEq, and_true] at htake
    obtain ⟨rfl, rfl⟩ := htake
    refine ⟨{ can_id := 0x101, raw_bytes := a :: b :: t, signal := "Motor Sıcaklığı",
              value := ((if 32768 ≤ a * 256 + b then (a * 256 + b : ℤ) - 65536
                else (a * 256 + b : ℤ)) : ℚ) / 10, unit := "°C" },
            { can_id := 0x101, raw_bytes := a :: b :: t2, signal := "Motor Sıcaklığı",
              value := ((if 32768 ≤ a * 256 + b then (a * 256 + b : ℤ) - 65536
                else (a * 256 + b : ℤ)) : ℚ) / 10, unit := "°C" },
            ?_, ?_, rfl, rfl, rfl, rfl, rfl⟩ <;>
      simp [decode_frame, CAN_ID_RPM, CAN_ID_TEMP, unpack16s]
  · injection hw with h
    subst h
    obtain ⟨a, b, t, rfl⟩ := cons2 data hlen
    obtain ⟨a2, b2, t2, rfl⟩ := cons2 data' hlen'
    simp only [List.take_succ_cons, List.take_zero, List.cons.injEq, and_true] at htake
    obtain ⟨rfl, rfl⟩ := htake
    refine ⟨{ can_id := 0x102, raw_bytes := a :: b :: t, signal := "Tork",
              value := ((if 32768 ≤ a * 256 + b then (a * 256 + b : ℤ) - 65536
                else (a * 256 + b : ℤ)) : ℚ) / 100, unit := "N·m" },
            { can_id := 0x102, raw_bytes := a :: b :: t2, signal := "Tork",
              value := ((if 32768 ≤ a * 256 + b then (a * 256 + b : ℤ) - 65536
                else (a * 256 + b : ℤ)) : ℚ) / 100, unit := "N·m" },
            ?_, ?_, rfl, rfl, rfl, rfl, rfl⟩ <;>
      simp [decode_frame, CAN_ID_RPM, CAN_ID_TEMP, CAN_ID_TORQUE, unpack16s]
  · injection hw with h
    subst h
    obtain ⟨a, b, t, rfl⟩ := cons2 data hlen
    obtain ⟨a2, b2, t2, rfl⟩ := cons2 data' hlen'
    simp only [List.take_succ_cons, List.take_zero, List.cons.injEq, and_true] at htake
    obtain ⟨rfl, rfl⟩ := htake
    refine ⟨{ can_id := 0x103, raw_bytes := a :: b :: t, signal := "DC Gerilim",
              value := ((a * 256 + b : ℕ) : ℚ) / 10, unit := "V" },
            { can_id := 0x103, raw_bytes := a :: b :: t2, signal := "DC Gerilim",
              value := ((a * 256 + b : ℕ) : ℚ) / 10, unit := "V" },
            ?_, ?_, rfl, rfl, rfl, rfl, rfl⟩ <;>
      simp [decode_frame, CAN_ID_RPM, CAN_ID_TEMP, CAN_ID_TORQUE, CAN_ID_VOLTAGE, unpack16u]
  · injection hw with h
    subst h
    obtain ⟨a, b, t, rfl⟩ := cons2 data hlen
    obtain ⟨a2, b2, t2, rfl⟩ := cons2 data' hlen'
    simp only [List.take_succ_cons, List.take_zero, List.cons.injEq, and_true] at htake
    obtain ⟨rfl, rfl⟩ := htake
    refine ⟨{ can_id := 0x104, raw_bytes := a :: b :: t, signal := "Faz Akımı",
              value := ((if 32768 ≤ a * 256 + b then (a * 256 + b : ℤ) - 65536
                else (a * 256 + b : ℤ)) : ℚ) / 100, unit := "A" },
            { can_id := 0x104, raw_bytes := a :: b :: t2, signal := "Faz Akımı",
              value := ((if 32768 ≤ a * 256 + b then (a * 256 + b : ℤ) - 65536
                else (a * 256 + b : ℤ)) : ℚ) / 100, unit := "A" },
            ?_, ?_, rfl, rfl, rfl, rfl, rfl⟩ <;>
      simp [decode_frame, CAN_ID_RPM, CAN_ID_TEMP, CAN_ID_TORQUE, CAN_ID_VOLTAGE,
        CAN_ID_CURRENT, unpack16s]
  · injection hw with h
    subst h
    obtain ⟨c, t, rfl⟩ := cons1 data hlen
    obtain ⟨c2, t2, rfl⟩ := cons1 data' hlen'
    simp only [List.take_succ_cons, List.take_zero, List.cons.injEq, and_true] at htake
    subst htake
    refine ⟨{ can_id := 0x1FF, raw_bytes := c :: t, signal := "Hata Durumu",
              value := (c : ℚ), unit := "", is_error := true,
              error_list := _parse_error_flags (c : ℤ) },
            { can_id := 0x1FF, raw_bytes := c :: t2, signal := "Hata Durumu",
              value := (c : ℚ), unit := "", is_error := true,
              error_list := _parse_error_flags (c : ℤ) },
            ?_, ?_, rfl, rfl, rfl, rfl, rfl⟩ <;>
      simp [decode_frame, CAN_ID_RPM, CAN_ID_TEMP, CAN_ID_TORQUE, CAN_ID_VOLTAGE,
        CAN_ID_CURRENT, CAN_ID_ERROR]
  · exact absurd hw (by simp)

/-- Witness for C10: two rpm payloads sharing their first two bytes but
with different trailing bytes. -/
theorem c10_oversized_payload_tolerant_witness :
    ∃ f f', decode_frame CAN_ID_RPM [5, 220, 9] = some f ∧
      decode_frame CAN_ID_RPM [5, 220, 77, 3] = some f' ∧
      f.can_id = CAN_ID_RPM ∧ f.raw_bytes = [5, 220, 9] ∧
      f.value = f'.value ∧ f.is_error = f'.is_error ∧ f.error_list = f'.error_list :=
  c10_oversized_payload_tolerant CAN_ID_RPM 2 [5, 220, 9] [5, 220, 77, 3]
    (by decide) (by decide) (by decide) (by decide)

end CanProtocol
